import Mathlib

/-
Verification of the session-token lifecycle and refresh-coordination
subsystem of the repository: the server-side cookie utilities
(server/src/utils/cookies.ts), the authentication routes
(server/src/routes/auth.ts), and the client-side axios refresh
coordinator (src/lib/axios.ts together with the AuthContext logout flow).

Strings are modelled as lists of Unicode scalar values (Lean Char).
JavaScript exceptions are modelled with Except / Option; the cooperative
(single-threaded, suspension only at awaits) scheduling of the client is
modelled by a small-step event system in which every run between two
suspension points is one atomic step.
-/

namespace SessionAuth

/-- Strings of the embedded programs, as lists of Unicode scalar values. -/
abbrev Str := List Char

/-- Coerce a Lean string literal into the model representation. -/
def str (s : String) : Str := s.data

/-! ## Cookie codec (server/src/utils/cookies.ts and the JS URI builtins) -/

/-- Characters left unescaped by the ECMAScript encodeURIComponent builtin:
ASCII alphanumerics and the marks - _ . ! ~ * ( ) and the apostrophe
(code 39). -/
def isUriUnreserved (c : Char) : Bool :=
  let n := c.toNat
  (65 ≤ n && n ≤ 90) || (97 ≤ n && n ≤ 122) || (48 ≤ n && n ≤ 57) ||
  n == 45 || n == 95 || n == 46 || n == 33 || n == 126 || n == 42 ||
  n == 39 || n == 40 || n == 41

/-- Uppercase hexadecimal digit, as used by the percent-escapes the JS
URI builtins produce. -/
def hexDigitChar (n : Nat) : Char :=
  if n < 10 then Char.ofNat (48 + n) else Char.ofNat (55 + n)

/-- Value of one hexadecimal digit (either case), as accepted when a JS
URI builtin reads a %XX escape. -/
def hexVal (c : Char) : Option Nat :=
  let n := c.toNat
  if 48 ≤ n && n ≤ 57 then some (n - 48)
  else if 65 ≤ n && n ≤ 70 then some (n - 55)
  else if 97 ≤ n && n ≤ 102 then some (n - 87)
  else none

/-- UTF-8 byte sequence of one Unicode scalar value. -/
def utf8Bytes (c : Char) : List Nat :=
  let n := c.toNat
  if n < 128 then [n]
  else if n < 2048 then [192 + n / 64, 128 + n % 64]
  else if n < 65536 then [224 + n / 4096, 128 + n / 64 % 64, 128 + n % 64]
  else [240 + n / 262144, 128 + n / 4096 % 64, 128 + n / 64 % 64, 128 + n % 64]

/-- Percent-escape of one byte. -/
def pctEncodeByte (b : Nat) : Str :=
  ['%', hexDigitChar (b / 16), hexDigitChar (b % 16)]

/-- Encoding of a single character by encodeURIComponent. -/
def encodeUriChar (c : Char) : Str :=
  if isUriUnreserved c then [c] else (utf8Bytes c).flatMap pctEncodeByte

/-- Model of the encodeURIComponent builtin on sequences of Unicode scalar
values. -/
def encodeURIComponent (s : Str) : Str := s.flatMap encodeUriChar

/-- First phase of decodeURIComponent: replace every %XX escape by its byte
value, keeping unescaped characters. The none result models a URIError
thrown on a malformed escape. -/
def pctTokens : Str → Option (List (Char ⊕ Nat))
  | [] => some []
  | c :: rest =>
    if c = '%' then
      match rest with
      | h1 :: h2 :: rest2 =>
        match hexVal h1, hexVal h2 with
        | some a, some b => (Sum.inr (16 * a + b) :: ·) <$> pctTokens rest2
        | _, _ => none
      | _ => none
    else (Sum.inl c :: ·) <$> pctTokens rest

/-- Recognizer for UTF-8 continuation bytes. -/
def isContByte (b : Nat) : Bool := 128 ≤ b && b < 192

/-- Consumption of one UTF-8 sequence whose leading byte is b and whose
continuation bytes must be the next escaped-byte tokens: the decoded
scalar value and the remaining tokens, or none for the URIError cases
(malformed, overlong, surrogate, out of range). -/
def utf8DecodeOne (b : Nat) (ts : List (Char ⊕ Nat)) :
    Option (Char × List (Char ⊕ Nat)) :=
  if b < 128 then some (Char.ofNat b, ts)
  else if b < 194 then none
  else if b < 224 then
    match ts with
    | Sum.inr b2 :: ts2 =>
      if isContByte b2 then
        some (Char.ofNat ((b - 192) * 64 + (b2 - 128)), ts2)
      else none
    | _ => none
  else if b < 240 then
    match ts with
    | Sum.inr b2 :: Sum.inr b3 :: ts3 =>
      if isContByte b2 && isContByte b3 then
        if 2048 ≤ (b - 224) * 4096 + (b2 - 128) * 64 + (b3 - 128) ∧
           ¬(55296 ≤ (b - 224) * 4096 + (b2 - 128) * 64 + (b3 - 128) ∧
             (b - 224) * 4096 + (b2 - 128) * 64 + (b3 - 128) ≤ 57343) then
          some (Char.ofNat ((b - 224) * 4096 + (b2 - 128) * 64 + (b3 - 128)), ts3)
        else none
      else none
    | _ => none
  else if b < 245 then
    match ts with
    | Sum.inr b2 :: Sum.inr b3 :: Sum.inr b4 :: ts4 =>
      if isContByte b2 && isContByte b3 && isContByte b4 then
        if 65536 ≤ (b - 240) * 262144 + (b2 - 128) * 4096 +
                   (b3 - 128) * 64 + (b4 - 128) ∧
           (b - 240) * 262144 + (b2 - 128) * 4096 +
                   (b3 - 128) * 64 + (b4 - 128) ≤ 1114111 then
          some (Char.ofNat ((b - 240) * 262144 + (b2 - 128) * 4096 +
                   (b3 - 128) * 64 + (b4 - 128)), ts4)
        else none
      else none
    | _ => none
  else none

set_option maxRecDepth 4000 in
theorem utf8DecodeOne_length {b : Nat} {ts : List (Char ⊕ Nat)}
    {c : Char} {ts2 : List (Char ⊕ Nat)}
    (h : utf8DecodeOne b ts = some (c, ts2)) : ts2.length ≤ ts.length := by
  unfold utf8DecodeOne at h
  by_cases h1 : b < 128
  · rw [if_pos h1] at h; cases h; exact Nat.le_refl _
  rw [if_neg h1] at h
  by_cases h2 : b < 194
  · rw [if_pos h2] at h; cases h
  rw [if_neg h2] at h
  by_cases h3 : b < 224
  · rw [if_pos h3] at h
    rcases ts with _ | ⟨c1 | b2, t1⟩
    · cases h
    · cases h
    · dsimp only at h
      split at h
      · cases h; simp only [List.length_cons]; omega
      · cases h
  rw [if_neg h3] at h
  by_cases h4 : b < 240
  · rw [if_pos h4] at h
    rcases ts with _ | ⟨c1 | b2, t1⟩
    · cases h
    · cases h
    · rcases t1 with _ | ⟨c2 | b3, t2⟩
      · cases h
      · cases h
      · dsimp only at h
        split at h
        · split at h
          · cases h; simp only [List.length_cons]; omega
          · cases h
        · cases h
  rw [if_neg h4] at h
  by_cases h5 : b < 245
  · rw [if_pos h5] at h
    rcases ts with _ | ⟨c1 | b2, t1⟩
    · cases h
    · cases h
    · rcases t1 with _ | ⟨c2 | b3, t2⟩
      · cases h
      · cases h
      · rcases t2 with _ | ⟨c3 | b4, t3⟩
        · cases h
        · cases h
        · dsimp only at h
          split at h
          · split at h
            · cases h; simp only [List.length_cons]; omega
            · cases h
          · cases h
  rw [if_neg h5] at h
  cases h

/-- Walker of the second phase, with a fuel argument (any fuel at least
the token count gives the same result; the wrapper below passes the
token count): UTF-8 decoding of the escaped byte tokens, rejecting
malformed sequences as the builtin does. -/
def utf8DecodeTokensF : Nat → List (Char ⊕ Nat) → Option Str
  | _, [] => some []
  | 0, _ :: _ => none
  | fuel + 1, Sum.inl c :: ts => (c :: ·) <$> utf8DecodeTokensF fuel ts
  | fuel + 1, Sum.inr b :: ts =>
    match utf8DecodeOne b ts with
    | some cts => (cts.1 :: ·) <$> utf8DecodeTokensF fuel cts.2
    | none => none

/-- Second phase of decodeURIComponent: UTF-8 decoding of the escaped byte
tokens, rejecting malformed sequences as the builtin does (none models
the thrown URIError). -/
def utf8DecodeTokens (ts : List (Char ⊕ Nat)) : Option Str :=
  utf8DecodeTokensF ts.length ts

/-- Model of the decodeURIComponent builtin; none models a thrown URIError. -/
def decodeURIComponent (s : Str) : Option Str :=
  (pctTokens s).bind utf8DecodeTokens

/-- Whitespace characters removed by the trim method of JS strings: ASCII
whitespace, NBSP, the Unicode space separators, line/paragraph
separators and the BOM. -/
def isJsWhitespace (c : Char) : Bool :=
  let n := c.toNat
  n == 9 || n == 10 || n == 11 || n == 12 || n == 13 || n == 32 ||
  n == 160 || n == 5760 || (8192 ≤ n && n ≤ 8202) || n == 8232 ||
  n == 8233 || n == 8239 || n == 8287 || n == 12288 || n == 65279

/-- Model of the trim method of JS strings. -/
def jsTrim (s : Str) : Str :=
  ((s.dropWhile isJsWhitespace).reverse.dropWhile isJsWhitespace).reverse

/-- Assignment cookies[name] = v on a plain JS object: overwrite the
existing property or append a new one. -/
def objAssign (m : List (Str × Str)) (k v : Str) : List (Str × Str) :=
  match m with
  | [] => [(k, v)]
  | (k0, v0) :: rest =>
    if k0 = k then (k, v) :: rest else (k0, v0) :: objAssign rest k v

/-- Model of parseCookies from the server cookie utilities: split the
Cookie header on semicolons, trim each part, split it on the equals
signs, and record name ↦ decodeURIComponent(rest joined by equals) for
every part with a nonempty name and at least one equals sign. The
Except error models the URIError of decodeURIComponent escaping from
the reduce callback. -/
def parseCookies (cookieHeader : Option Str) : Except Unit (List (Str × Str)) :=
  match cookieHeader with
  | none => Except.ok []
  | some h =>
    (h.splitOn ';').foldlM (fun cookies piece =>
      match (jsTrim piece).splitOn '=' with
      | [] => Except.ok cookies
      | name :: rest =>
        if name ≠ [] ∧ rest ≠ [] then
          match decodeURIComponent (List.intercalate ['='] rest) with
          | some v => Except.ok (objAssign cookies name v)
          | none => Except.error ()
        else Except.ok cookies) []

/-- Model of getCookie: read the property of the parsed cookie record.
The outer error is the propagated URIError; the inner Option is the
undefined-vs-string result of the property read. -/
def getCookie (cookieHeader : Option Str) (name : Str) : Except Unit (Option Str) :=
  (parseCookies cookieHeader).map (fun m => m.lookup name)

/-! ## Server configuration defaults (server/src/config.ts, no
environment overrides) -/

/-- Name of the access-token cookie. -/
def accessTokenCookieName : Str := str "access_token"

/-- Name of the refresh-token cookie. -/
def refreshTokenCookieName : Str := str "refresh_token"

/-- Name of the legacy session cookie. -/
def sessionCookieName : Str := str "auth_session"

/-- Access-token cookie lifetime in milliseconds (5 minutes). -/
def accessTokenMaxAge : Nat := 300000

/-- Refresh-token cookie lifetime in milliseconds (15 minutes). -/
def refreshTokenMaxAge : Nat := 900000

/-- Legacy default cookie lifetime in milliseconds. -/
def cookieMaxAge : Nat := 300000

/-- Options record of generateSetCookie; a none field selects the
default of the destructuring in the source. -/
structure CookieOptions where
  httpOnly : Option Bool
  secure : Option Bool
  sameSite : Option Str
  maxAge : Option Nat
  path : Option Str
  domain : Option Str

/-- Options value with every field defaulted. -/
def CookieOptions.empty : CookieOptions :=
  ⟨none, none, none, none, none, none⟩

/-- Decimal digits of a natural number. -/
def natDigits (n : Nat) : Str := (toString n).data

/-- Model of generateSetCookie; the https flag stands for the result of
isHttpsRequest on the Hono context. Max-Age is the millisecond
lifetime integer-divided by 1000 (Math.floor). -/
def generateSetCookie (name value : Str) (options : CookieOptions)
    (https : Bool) : Str :=
  let httpOnly := options.httpOnly.getD true
  let secure := options.secure.getD https
  let sameSite := options.sameSite.getD (str "Lax")
  let maxAge := options.maxAge.getD cookieMaxAge
  let path := options.path.getD (str "/")
  let parts : List Str :=
    [name ++ '=' :: encodeURIComponent value,
     str "Path=" ++ path,
     str "Max-Age=" ++ natDigits (maxAge / 1000),
     str "SameSite=" ++ sameSite] ++
    (if httpOnly then [str "HttpOnly"] else []) ++
    (if secure then [str "Secure"] else []) ++
    (match options.domain with
     | some d => [str "Domain=" ++ d]
     | none => [])
  List.intercalate (str "; ") parts

/-- Model of generateDeleteCookie with the default path. -/
def generateDeleteCookie (name : Str) : Str :=
  name ++ str "=; Path=/; Max-Age=0; HttpOnly; SameSite=Lax"

/-! ## Authentication routes (server/src/routes/auth.ts) -/

/-- Body payload of a modelled HTTP response; only the JSON shape the
route literally builds is tracked. -/
inductive RespBody
  | errorJson (msg : Str)
  | successJson
  | loginOk (userPresent : Bool)
deriving DecidableEq, Repr

/-- Modelled HTTP response of a route: status, body, Set-Cookie headers. -/
structure HttpResponse where
  status : Nat
  body : RespBody
  setCookies : List Str
deriving DecidableEq, Repr

/-- Reply of the upstream identity provider (Directus) to a token fetch:
either the fetch rejects (network error, or a later json parse throws),
or a response with its ok flag, status, and the optional token fields
of data.data. -/
inductive ProviderReply
  | netError
  | reply (ok : Bool) (status : Nat) (accessTok : Option Str) (refreshTok : Option Str)
deriving DecidableEq, Repr

/-- Cookie options the auth routes pass for the access-token cookie. -/
def accessCookieOptions : CookieOptions :=
  ⟨some true, none, some (str "Lax"), some accessTokenMaxAge, none, none⟩

/-- Cookie options the auth routes pass for the refresh-token cookie. -/
def refreshCookieOptions : CookieOptions :=
  ⟨some true, none, some (str "Lax"), some refreshTokenMaxAge, none, none⟩

/-- Model of the POST /auth/refresh route: read the refresh cookie (a
falsy — absent or empty — value yields 401), call the provider, map a
rejected reply to 401, a falsy (absent or empty) new access token to
500, and otherwise emit the new access cookie always and the new
refresh cookie only when the provider supplied a truthy (nonempty)
one. The JS truthiness tests on the optional token strings are
modelled as getD [] = []. -/
def refreshRoute (cookieHeader : Option Str) (provider : ProviderReply)
    (https : Bool) : HttpResponse :=
  match getCookie cookieHeader refreshTokenCookieName with
  | Except.error _ => ⟨500, .errorJson (str "Internal server error"), []⟩
  | Except.ok refreshCookie =>
    if refreshCookie.getD [] = [] then
      ⟨401, .errorJson (str "No refresh token found"), []⟩
    else
      match provider with
      | .netError => ⟨500, .errorJson (str "Internal server error"), []⟩
      | .reply ok _ accessTok refreshTok =>
        if !ok then ⟨401, .errorJson (str "Failed to refresh token"), []⟩
        else if accessTok.getD [] = [] then
          ⟨500, .errorJson (str "No access token received"), []⟩
        else
          ⟨200, .successJson,
           [generateSetCookie accessTokenCookieName (accessTok.getD [])
              accessCookieOptions https] ++
           (if refreshTok.getD [] = [] then []
            else [generateSetCookie refreshTokenCookieName (refreshTok.getD [])
                    refreshCookieOptions https])⟩

/-- Model of the POST /auth/login route. The body fields are none when
missing; provErrMsg is the message of errors[0] in a rejected provider
reply, userFetchOk tells whether the follow-up user fetch succeeded.
The JS truthiness tests on the provider's optional token strings are
modelled as getD [] = [], exactly as in refreshRoute. -/
def loginRoute (email password : Option Str) (provider : ProviderReply)
    (provErrMsg : Option Str) (userFetchOk : Bool) (https : Bool) :
    HttpResponse :=
  let emailFalsy := (email.getD []) = []
  let passFalsy := (password.getD []) = []
  if emailFalsy ∨ passFalsy then
    ⟨400, .errorJson (str "Email and password are required"), []⟩
  else
    match provider with
    | .netError => ⟨500, .errorJson (str "Internal server error"), []⟩
    | .reply ok status accessTok refreshTok =>
      if !ok then
        ⟨status,
         .errorJson (provErrMsg.getD
           (str "Login failed. Please check your credentials.")), []⟩
      else if accessTok.getD [] = [] then
        ⟨500, .errorJson (str "No access token received from server"), []⟩
      else
        ⟨200, .loginOk userFetchOk,
         [generateSetCookie accessTokenCookieName (accessTok.getD [])
            accessCookieOptions https] ++
         (if refreshTok.getD [] = [] then []
          else [generateSetCookie refreshTokenCookieName (refreshTok.getD [])
                  refreshCookieOptions https])⟩

/-- Model of the POST /auth/logout route. -/
def logoutRoute : HttpResponse :=
  ⟨200, .successJson,
   [generateDeleteCookie accessTokenCookieName,
    generateDeleteCookie refreshTokenCookieName,
    generateDeleteCookie sessionCookieName]⟩

/-- Name part of a Set-Cookie header: everything before the first equals
sign. -/
def setCookieName (s : Str) : Str := s.takeWhile (fun c => c ≠ '=')

/-- Does the response carry a Set-Cookie header for the given cookie
name? -/
def setsCookieFor (r : HttpResponse) (name : Str) : Bool :=
  r.setCookies.any (fun s => setCookieName s == name)

/-- Browser cookie-jar update: each Set-Cookie header replaces the jar
entry of its cookie name (the stored entry is kept as the raw header,
which carries the value and the Max-Age). -/
def applySetCookies (jar : List (Str × Str)) (headers : List Str) :
    List (Str × Str) :=
  headers.foldl (fun j h => objAssign j (setCookieName h) h) jar

/-! ## Client refresh coordinator (src/lib/axios.ts) -/

/-- Access-token lifetime assumed by the client, in milliseconds. -/
def ACCESS_TOKEN_EXPIRY : Int := 5 * 60 * 1000

/-- Head start of the proactive refresh before expiry, in milliseconds. -/
def REFRESH_BUFFER : Int := 1 * 60 * 1000

/-- Elapsed time after which a proactive refresh is due (4 minutes). -/
def REFRESH_THRESHOLD : Int := ACCESS_TOKEN_EXPIRY - REFRESH_BUFFER

/-- Substring containment, modelling the includes method of JS strings. -/
def containsSub (s sub : Str) : Bool :=
  s.tails.any (fun t => sub.isPrefixOf t)

/-- Model of shouldRefreshToken: at least REFRESH_THRESHOLD milliseconds
have elapsed since the last refresh. -/
def shouldRefreshToken (now lastRefreshTime : Int) : Bool :=
  decide (REFRESH_THRESHOLD ≤ now - lastRefreshTime)

/-- Auth endpoints whose requests skip the proactive check of the request
interceptor: login, refresh and logout. The whoami probe /auth/me is
not in this list. -/
def proactiveExemptUrl (url : Str) : Bool :=
  containsSub url (str "/auth/login") ||
  containsSub url (str "/auth/refresh") ||
  containsSub url (str "/auth/logout")

/-- Auth endpoints whose 401 responses are rejected unchanged by the
response interceptor: login, refresh, logout and the whoami probe. -/
def reactiveExemptUrl (url : Str) : Bool :=
  containsSub url (str "/auth/login") ||
  containsSub url (str "/auth/refresh") ||
  containsSub url (str "/auth/logout") ||
  containsSub url (str "/auth/me")

/-- Module-level mutable state of src/lib/axios.ts together with
bookkeeping observables (promise identities, call counters, and the
log of which promise each arriving request awaited) used to state the
single-flight properties. -/
structure CoordState where
  lastRefreshTime : Int
  isRefreshing : Bool
  refreshPromise : Option Nat
  nextPromiseId : Nat
  outstandingCalls : Nat
  startedCalls : Nat
  joins : List (Option Nat)
deriving DecidableEq, Repr

/-- Coordinator state at module load: lastRefreshTime = Date.now(),
nothing in flight. -/
def initCoordState (startTime : Int) : CoordState :=
  ⟨startTime, false, none, 0, 0, 0, []⟩

/-- Scheduler events of the cooperative client model. Each event is one
atomic run between suspension points: the synchronous prologue of an
interceptor (guard check plus, for an initiator, starting the renewal
call), the settling of the pending renewal HTTP call, and the finally
block of the initiator continuation. -/
inductive CoordEvent
  | request (url : Str) (now : Int)
  | retry401 (url : Str)
  | resolve (ok : Bool) (now : Int)
  | finalize
deriving DecidableEq, Repr

/-- One atomic step of the coordinator. Faithful to the interceptors: the
in-flight test and the initiation happen with no intervening
suspension point, a request finding a renewal in flight records the
shared promise it awaits, and the resolve step updates
lastRefreshTime only on success. -/
def coordStep (s : CoordState) : CoordEvent → CoordState
  | .request url now =>
    if proactiveExemptUrl url then { s with joins := s.joins ++ [none] }
    else if shouldRefreshToken now s.lastRefreshTime then
      if s.isRefreshing && s.refreshPromise.isSome then
        { s with joins := s.joins ++ [s.refreshPromise] }
      else
        { s with isRefreshing := true,
                 refreshPromise := some s.nextPromiseId,
                 nextPromiseId := s.nextPromiseId + 1,
                 outstandingCalls := s.outstandingCalls + 1,
                 startedCalls := s.startedCalls + 1,
                 joins := s.joins ++ [some s.nextPromiseId] }
    else { s with joins := s.joins ++ [none] }
  | .retry401 url =>
    if reactiveExemptUrl url then { s with joins := s.joins ++ [none] }
    else if s.isRefreshing && s.refreshPromise.isSome then
      { s with joins := s.joins ++ [s.refreshPromise] }
    else
      { s with isRefreshing := true,
               refreshPromise := some s.nextPromiseId,
               nextPromiseId := s.nextPromiseId + 1,
               outstandingCalls := s.outstandingCalls + 1,
               startedCalls := s.startedCalls + 1,
               joins := s.joins ++ [some s.nextPromiseId] }
  | .resolve ok now =>
    if s.outstandingCalls = 0 then s
    else { s with outstandingCalls := s.outstandingCalls - 1,
                  lastRefreshTime := if ok then now else s.lastRefreshTime }
  | .finalize =>
    if s.outstandingCalls = 0 ∧ s.isRefreshing = true then
      { s with isRefreshing := false, refreshPromise := none }
    else s

/-- Run of the coordinator over a list of scheduler events. -/
def coordRun (s : CoordState) (evs : List CoordEvent) : CoordState :=
  evs.foldl coordStep s

/-- Single-flight invariant: never more than one renewal HTTP call in the
air, an outstanding call implies the in-flight guard is set, and the
guard flag and the stored shared promise are set and cleared
together. -/
def SingleFlightInv (s : CoordState) : Prop :=
  s.outstandingCalls ≤ 1 ∧
  (0 < s.outstandingCalls → s.isRefreshing = true) ∧
  s.isRefreshing = s.refreshPromise.isSome

/-- Arrival events of the single-flight scenario: a non-exempt proactive
request that finds renewal due, or a non-exempt reactive 401
handler. -/
def dueArrival (last : Int) : CoordEvent → Bool
  | .request url now => !proactiveExemptUrl url && shouldRefreshToken now last
  | .retry401 url => !reactiveExemptUrl url
  | .resolve _ _ => false
  | .finalize => false

/-- Per-request configuration subset relevant to the response
interceptor: the url and the one-shot retry marker. -/
structure ReqConfig where
  url : Str
  retryFlag : Bool
deriving DecidableEq, Repr

/-- Decision of the response-interceptor error branch before any
suspension point: reject the error unchanged, or mark the request
retried and either await the in-flight renewal or initiate one. -/
inductive RespDecision
  | reject
  | awaitExisting (marked : ReqConfig)
  | initiate (marked : ReqConfig)
deriving DecidableEq, Repr

/-- Synchronous prologue of the response interceptor error handler;
status none models an error that carries no response. reject means
the error is propagated with no renewal call and no replay. -/
def responseErrorDecision (r : ReqConfig) (status : Option Nat)
    (isRefr : Bool) (hasPromise : Bool) : RespDecision :=
  if status ≠ some 401 ∨ r.retryFlag = true then .reject
  else if reactiveExemptUrl r.url then .reject
  else
    let marked : ReqConfig := { r with retryFlag := true }
    if isRefr && hasPromise then .awaitExisting marked else .initiate marked

/-- Outcome of the reactive path after the awaited renewal settles. -/
inductive RespOutcome
  | replayRequest (r : ReqConfig)
  | failureThenPropagate
deriving DecidableEq, Repr

/-- Continuation of the reactive path: replay the marked request once on
success, otherwise run handleRefreshFailure and propagate the original
error. -/
def reactiveContinuation (marked : ReqConfig) (refreshed : Bool) :
    RespOutcome :=
  if refreshed then .replayRequest marked else .failureThenPropagate

/-- Model of handleRefreshFailure: clear lastRefreshTime to 0 and
navigate to the login page with the current path as the encoded
redirect parameter — unless the current path already is /login.
Returns the new lastRefreshTime and the navigation target, if any. -/
def handleRefreshFailure (pathname : Str) : Int × Option Str :=
  (0,
   if pathname = str "/login" then none
   else some (str "/login?redirect=" ++ encodeURIComponent pathname))

/-- Combined effect on the coordinator state of the reactive initiator
path when the renewal fails: handleRefreshFailure runs and the finally
block then clears the in-flight guard and promise. -/
def reactiveFailureCleanup (s : CoordState) (pathname : Str) :
    CoordState × Option Str :=
  ({ s with lastRefreshTime := (handleRefreshFailure pathname).1,
            isRefreshing := false,
            refreshPromise := none },
   (handleRefreshFailure pathname).2)

/-- Model of resetRefreshTimer, called after a successful login. -/
def resetRefreshTimer (s : CoordState) (now : Int) : CoordState :=
  { s with lastRefreshTime := now }

/-- Model of clearRefreshTimer, called on logout and on a failed startup
auth check. -/
def clearRefreshTimer (s : CoordState) : CoordState :=
  { s with lastRefreshTime := 0, isRefreshing := false,
           refreshPromise := none }

/-! ## Logout flow (src/contexts/AuthContext.tsx) -/

/-- Observable events of the AuthContext logout function. -/
inductive LogoutEvent
  | logoutRequestSent
  | logoutResponseSettled (ok : Bool)
  | stateCleared
  | refreshTimerCleared
deriving DecidableEq, Repr

/-- Execution order of the logout function: the await of the logout POST
precedes the React state clearing and clearRefreshTimer on the success
path and on the catch path alike. -/
def logoutEvents (ok : Bool) : List LogoutEvent :=
  [.logoutRequestSent, .logoutResponseSettled ok, .stateCleared,
   .refreshTimerCleared]

/-! ## Lemmas about the URI codec -/

theorem char_valid_nat (c : Char) :
    c.toNat < 55296 ∨ (57343 < c.toNat ∧ c.toNat < 1114112) := by
  rcases c.valid with h | ⟨h1, h2⟩
  · exact Or.inl (UInt32.toNat_lt_of_lt (by decide) h)
  · exact Or.inr ⟨UInt32.lt_toNat_of_lt (by decide) h1,
      UInt32.toNat_lt_of_lt (by decide) h2⟩

theorem hexVal_hexDigitChar (k : Nat) (h : k < 16) :
    hexVal (hexDigitChar k) = some k := by
  interval_cases k <;> rfl

theorem pctTokens_pctEncodeByte (b : Nat) (hb : b < 256) (rest : Str) :
    pctTokens (pctEncodeByte b ++ rest) =
      (Sum.inr b :: ·) <$> pctTokens rest := by
  have h1 : b / 16 < 16 := by omega
  have h2 : b % 16 < 16 := by omega
  have e1 := hexVal_hexDigitChar _ h1
  have e2 := hexVal_hexDigitChar _ h2
  simp only [pctEncodeByte, List.cons_append, List.nil_append]
  simp [pctTokens, e1, e2, Nat.div_add_mod]

theorem isUriUnreserved_ne_pct {c : Char} (h : isUriUnreserved c = true) :
    c ≠ '%' := by
  rintro rfl
  exact absurd h (by decide)

theorem pctTokens_unres {c : Char} (h : isUriUnreserved c = true) (rest : Str) :
    pctTokens (c :: rest) = (Sum.inl c :: ·) <$> pctTokens rest := by
  have hc := isUriUnreserved_ne_pct h
  rcases rest with _ | ⟨a, _ | ⟨b, t⟩⟩ <;> simp [pctTokens, hc]

/-- Token sequence the tokenizer recovers from the encoding of one
character. -/
def encTokens (c : Char) : List (Char ⊕ Nat) :=
  if isUriUnreserved c then [Sum.inl c] else (utf8Bytes c).map Sum.inr

theorem utf8Bytes_lt (c : Char) : ∀ b ∈ utf8Bytes c, b < 256 := by
  have h := char_valid_nat c
  intro b hb
  simp only [utf8Bytes] at hb
  split at hb
  · simp only [List.mem_singleton] at hb; omega
  · split at hb
    · simp only [List.mem_cons, List.mem_singleton, List.not_mem_nil,
        or_false] at hb
      omega
    · split at hb
      · simp only [List.mem_cons, List.mem_singleton, List.not_mem_nil,
          or_false] at hb
        omega
      · simp only [List.mem_cons, List.mem_singleton, List.not_mem_nil,
          or_false] at hb
        omega

theorem pctTokens_bytes (bs : List Nat) (hb : ∀ b ∈ bs, b < 256) (rest : Str) :
    pctTokens (bs.flatMap pctEncodeByte ++ rest) =
      (fun ts => bs.map Sum.inr ++ ts) <$> pctTokens rest := by
  induction bs with
  | nil =>
    simp only [List.flatMap_nil, List.nil_append, List.map_nil]
    cases pctTokens rest <;> rfl
  | cons b bs ih =>
    have hb0 : b < 256 := hb b (List.mem_cons_self b bs)
    have hbs : ∀ x ∈ bs, x < 256 := fun x hx => hb x (List.mem_cons_of_mem _ hx)
    simp only [List.flatMap_cons, List.append_assoc]
    rw [pctTokens_pctEncodeByte b hb0, ih hbs]
    cases pctTokens rest <;> rfl

theorem pctTokens_encChar (c : Char) (rest : Str) :
    pctTokens (encodeUriChar c ++ rest) =
      (fun ts => encTokens c ++ ts) <$> pctTokens rest := by
  by_cases h : isUriUnreserved c = true
  · simp only [encodeUriChar, encTokens, if_pos h, List.cons_append,
      List.nil_append]
    rw [pctTokens_unres h]
  · simp only [encodeUriChar, encTokens, if_neg h]
    exact pctTokens_bytes _ (utf8Bytes_lt c) rest

theorem pctTokens_encode (s : Str) :
    pctTokens (encodeURIComponent s) = some (s.flatMap encTokens) := by
  induction s with
  | nil => rfl
  | cons c s ih =>
    simp only [encodeURIComponent, List.flatMap_cons] at ih ⊢
    rw [pctTokens_encChar c, ih]
    rfl

theorem utf8DecodeTokensF_irrel (fuel1 : Nat) : ∀ (fuel2 : Nat)
    (ts : List (Char ⊕ Nat)), ts.length ≤ fuel1 → ts.length ≤ fuel2 →
    utf8DecodeTokensF fuel1 ts = utf8DecodeTokensF fuel2 ts := by
  induction fuel1 with
  | zero =>
    intro fuel2 ts h1 h2
    have : ts = [] := List.eq_nil_of_length_eq_zero (Nat.le_zero.mp h1)
    subst this
    cases fuel2 <;> rfl
  | succ f1 ih =>
    intro fuel2 ts h1 h2
    cases ts with
    | nil => cases fuel2 <;> rfl
    | cons x ts2 =>
      cases fuel2 with
      | zero => simp at h2
      | succ f2 =>
        cases x with
        | inl c =>
          simp only [utf8DecodeTokensF]
          rw [ih f2 ts2 (by simpa using h1) (by simpa using h2)]
        | inr b =>
          simp only [utf8DecodeTokensF]
          cases hone : utf8DecodeOne b ts2 with
          | none => rfl
          | some cts =>
            dsimp only
            have hone2 : utf8DecodeOne b ts2 = some (cts.1, cts.2) := by
              rw [hone]
            have hlen := utf8DecodeOne_length hone2
            rw [ih f2 cts.2 (by simp at h1; omega) (by simp at h2; omega)]

theorem utf8DecodeTokens_inl (c : Char) (ts : List (Char ⊕ Nat)) :
    utf8DecodeTokens (Sum.inl c :: ts) = (c :: ·) <$> utf8DecodeTokens ts := by
  show utf8DecodeTokensF (ts.length + 1) (Sum.inl c :: ts) = _
  rw [utf8DecodeTokensF]
  rfl

theorem utf8DecodeTokens_inr {b : Nat} {ts : List (Char ⊕ Nat)} {c : Char}
    {ts2 : List (Char ⊕ Nat)} (hd : utf8DecodeOne b ts = some (c, ts2)) :
    utf8DecodeTokens (Sum.inr b :: ts) = (c :: ·) <$> utf8DecodeTokens ts2 := by
  show utf8DecodeTokensF (ts.length + 1) (Sum.inr b :: ts) = _
  rw [utf8DecodeTokensF, hd]
  show (c :: ·) <$> utf8DecodeTokensF ts.length ts2 = _
  rw [utf8DecodeTokensF_irrel ts.length ts2.length ts2
    (utf8DecodeOne_length hd) (Nat.le_refl _)]
  rfl

theorem isContByte_mid (k : Nat) : isContByte (128 + k % 64) = true := by
  simp only [isContByte, Bool.and_eq_true, decide_eq_true_eq]
  omega

theorem utf8DecodeTokens_utf8Bytes (c : Char) (ts : List (Char ⊕ Nat)) :
    utf8DecodeTokens ((utf8Bytes c).map Sum.inr ++ ts) =
      (c :: ·) <$> utf8DecodeTokens ts := by
  have hv := char_valid_nat c
  by_cases h1 : c.toNat < 128
  · have hb : utf8Bytes c = [c.toNat] := by
      simp only [utf8Bytes]
      rw [if_pos h1]
    rw [hb]
    simp only [List.map_cons, List.map_nil, List.cons_append, List.nil_append]
    have hd : utf8DecodeOne c.toNat ts = some (Char.ofNat c.toNat, ts) := by
      unfold utf8DecodeOne
      rw [if_pos h1]
    rw [utf8DecodeTokens_inr hd, Char.ofNat_toNat]
  by_cases h2 : c.toNat < 2048
  · have hb : utf8Bytes c = [192 + c.toNat / 64, 128 + c.toNat % 64] := by
      simp only [utf8Bytes]
      rw [if_neg h1, if_pos h2]
    rw [hb]
    simp only [List.map_cons, List.map_nil, List.cons_append, List.nil_append]
    have hd : utf8DecodeOne (192 + c.toNat / 64)
        (Sum.inr (128 + c.toNat % 64) :: ts) = some (c, ts) := by
      unfold utf8DecodeOne
      rw [if_neg (by omega), if_neg (by omega), if_pos (by omega)]
      dsimp only
      rw [if_pos (isContByte_mid _)]
      have he : (192 + c.toNat / 64 - 192) * 64 + (128 + c.toNat % 64 - 128)
          = c.toNat := by omega
      rw [he, Char.ofNat_toNat]
    rw [utf8DecodeTokens_inr hd]
  by_cases h3 : c.toNat < 65536
  · have hb : utf8Bytes c =
        [224 + c.toNat / 4096, 128 + c.toNat / 64 % 64, 128 + c.toNat % 64] := by
      simp only [utf8Bytes]
      rw [if_neg h1, if_neg h2, if_pos h3]
    rw [hb]
    simp only [List.map_cons, List.map_nil, List.cons_append, List.nil_append]
    have hd : utf8DecodeOne (224 + c.toNat / 4096)
        (Sum.inr (128 + c.toNat / 64 % 64) :: Sum.inr (128 + c.toNat % 64) :: ts)
        = some (c, ts) := by
      unfold utf8DecodeOne
      rw [if_neg (by omega), if_neg (by omega), if_neg (by omega),
        if_pos (by omega)]
      dsimp only
      rw [if_pos (show (isContByte (128 + c.toNat / 64 % 64) &&
            isContByte (128 + c.toNat % 64)) = true by
          rw [isContByte_mid, isContByte_mid]; rfl)]
      have he : (224 + c.toNat / 4096 - 224) * 4096 +
          (128 + c.toNat / 64 % 64 - 128) * 64 + (128 + c.toNat % 64 - 128)
          = c.toNat := by omega
      rw [he]
      rw [if_pos (by omega), Char.ofNat_toNat]
    rw [utf8DecodeTokens_inr hd]
  · have hb : utf8Bytes c =
        [240 + c.toNat / 262144, 128 + c.toNat / 4096 % 64,
         128 + c.toNat / 64 % 64, 128 + c.toNat % 64] := by
      simp only [utf8Bytes]
      rw [if_neg h1, if_neg h2, if_neg h3]
    rw [hb]
    simp only [List.map_cons, List.map_nil, List.cons_append, List.nil_append]
    have hd : utf8DecodeOne (240 + c.toNat / 262144)
        (Sum.inr (128 + c.toNat / 4096 % 64) :: Sum.inr (128 + c.toNat / 64 % 64)
          :: Sum.inr (128 + c.toNat % 64) :: ts) = some (c, ts) := by
      unfold utf8DecodeOne
      rw [if_neg (by omega), if_neg (by omega), if_neg (by omega),
        if_neg (by omega), if_pos (by omega)]
      dsimp only
      rw [if_pos (show (isContByte (128 + c.toNat / 4096 % 64) &&
            isContByte (128 + c.toNat / 64 % 64) &&
            isContByte (128 + c.toNat % 64)) = true by
          rw [isContByte_mid, isContByte_mid, isContByte_mid]; rfl)]
      have he : (240 + c.toNat / 262144 - 240) * 262144 +
          (128 + c.toNat / 4096 % 64 - 128) * 4096 +
          (128 + c.toNat / 64 % 64 - 128) * 64 + (128 + c.toNat % 64 - 128)
          = c.toNat := by omega
      rw [he]
      rw [if_pos (by omega), Char.ofNat_toNat]
    rw [utf8DecodeTokens_inr hd]

theorem utf8DecodeTokens_encTokens (c : Char) (ts : List (Char ⊕ Nat)) :
    utf8DecodeTokens (encTokens c ++ ts) = (c :: ·) <$> utf8DecodeTokens ts := by
  by_cases h : isUriUnreserved c = true
  · simp only [encTokens, if_pos h, List.cons_append, List.nil_append]
    exact utf8DecodeTokens_inl c ts
  · simp only [encTokens, if_neg h]
    exact utf8DecodeTokens_utf8Bytes c ts

theorem utf8DecodeTokens_flatMap_encTokens (s : Str) :
    utf8DecodeTokens (s.flatMap encTokens) = some s := by
  induction s with
  | nil => rfl
  | cons c s ih =>
    simp only [List.flatMap_cons]
    rw [utf8DecodeTokens_encTokens, ih]
    rfl

/-- Round trip of the two URI builtins: decodeURIComponent inverts
encodeURIComponent on every string. -/
theorem decodeURIComponent_encodeURIComponent (s : Str) :
    decodeURIComponent (encodeURIComponent s) = some s := by
  rw [decodeURIComponent, pctTokens_encode]
  exact utf8DecodeTokens_flatMap_encTokens s

theorem safe_unres {a : Char} (h : isUriUnreserved a = true) :
    a ≠ ';' ∧ a ≠ '=' ∧ isJsWhitespace a = false := by
  refine ⟨?_, ?_, ?_⟩
  · rintro rfl; exact absurd h (by decide)
  · rintro rfl; exact absurd h (by decide)
  · cases hw : isJsWhitespace a
    · rfl
    · exfalso
      simp only [isUriUnreserved, Bool.or_eq_true, Bool.and_eq_true,
        decide_eq_true_eq, beq_iff_eq] at h
      simp only [isJsWhitespace, Bool.or_eq_true, Bool.and_eq_true,
        decide_eq_true_eq, beq_iff_eq] at hw
      omega

theorem safe_hexDigit (k : Nat) (hk : k < 16) :
    hexDigitChar k ≠ ';' ∧ hexDigitChar k ≠ '=' ∧
      isJsWhitespace (hexDigitChar k) = false := by
  interval_cases k <;> exact ⟨by decide, by decide, by decide⟩

/-- Characters produced by encodeURIComponent never collide with the
cookie wire format: no semicolon, no equals sign, no whitespace. -/
theorem encode_safe (s : Str) :
    ∀ x ∈ encodeURIComponent s, x ≠ ';' ∧ x ≠ '=' ∧ isJsWhitespace x = false := by
  intro x hx
  simp only [encodeURIComponent, List.mem_flatMap] at hx
  obtain ⟨a, _, ha⟩ := hx
  by_cases h : isUriUnreserved a = true
  · simp only [encodeUriChar, if_pos h, List.mem_singleton] at ha
    subst ha
    exact safe_unres h
  · simp only [encodeUriChar, if_neg h, List.mem_flatMap] at ha
    obtain ⟨b, hbmem, hb⟩ := ha
    have hb256 : b < 256 := utf8Bytes_lt a b hbmem
    simp only [pctEncodeByte, List.mem_cons, List.not_mem_nil,
      or_false] at hb
    rcases hb with rfl | rfl | rfl
    · exact ⟨by decide, by decide, by decide⟩
    · exact safe_hexDigit _ (by omega)
    · exact safe_hexDigit _ (by omega)

theorem jsTrim_eq_self {s : Str} (hne : s ≠ [])
    (hh : isJsWhitespace (s.head hne) = false)
    (hl : isJsWhitespace (s.getLast hne) = false) : jsTrim s = s := by
  show List.rdropWhile isJsWhitespace (s.dropWhile isJsWhitespace) = s
  have hd : s.dropWhile isJsWhitespace = s := by
    cases s with
    | nil => rfl
    | cons a t =>
      have ha : isJsWhitespace a = false := hh
      rw [List.dropWhile_cons, ha]
      simp
  rw [hd, List.rdropWhile_eq_self_iff]
  intro h2 hc
  have he : s.getLast h2 = s.getLast hne := rfl
  rw [he, hl] at hc
  cases hc

theorem splitOn_single {s : Str} (c : Char) (h : ∀ x ∈ s, x ≠ c) :
    s.splitOn c = [s] := by
  show s.splitOnP (· == c) = [s]
  apply List.splitOnP_eq_single
  intro x hx hb
  exact h x hx (by simpa using hb)

theorem parseCookies_pair (name value : Str) (hne : name ≠ [])
    (hsemi : ∀ x ∈ name, x ≠ ';') (heq : ∀ x ∈ name, x ≠ '=')
    (hhead : isJsWhitespace (name.head hne) = false) :
    parseCookies (some (name ++ '=' :: encodeURIComponent value)) =
      Except.ok [(name, value)] := by
  have hsafe := encode_safe value
  have hne2 : name ++ '=' :: encodeURIComponent value ≠ [] := by simp
  have h1 : (name ++ '=' :: encodeURIComponent value).splitOn ';' =
      [name ++ '=' :: encodeURIComponent value] := by
    apply splitOn_single
    intro x hx
    rcases List.mem_append.mp hx with hx | hx
    · exact hsemi x hx
    · rcases List.mem_cons.mp hx with rfl | hx
      · decide
      · exact (hsafe x hx).1
  have h2 : jsTrim (name ++ '=' :: encodeURIComponent value) =
      name ++ '=' :: encodeURIComponent value := by
    apply jsTrim_eq_self hne2
    · rw [List.head_append_left hne]
      exact hhead
    · rw [List.getLast_append_of_ne_nil (by simp)]
      cases henc : encodeURIComponent value with
      | nil => decide
      | cons e0 erest =>
        rw [List.getLast_cons (by simp)]
        have hmem : (e0 :: erest).getLast (by simp) ∈ encodeURIComponent value := by
          rw [henc]; exact List.getLast_mem _
        exact (hsafe _ hmem).2.2
  have h3 : (name ++ '=' :: encodeURIComponent value).splitOn '=' =
      name :: [encodeURIComponent value] := by
    show List.splitOnP (fun x => x == '=') _ = _
    rw [List.splitOnP_first (fun x => x == '=') name
      (fun x hx hb => heq x hx (by simpa using hb)) '=' (by simp)
      (encodeURIComponent value)]
    congr 1
    apply List.splitOnP_eq_single
    intro x hx hb
    exact (hsafe x hx).2.1 (by simpa using hb)
  have h4 : List.intercalate ['='] [encodeURIComponent value] =
      encodeURIComponent value := by
    simp [List.intercalate]
  unfold parseCookies
  dsimp only
  rw [h1]
  simp only [List.foldlM_cons, List.foldlM_nil]
  rw [h2, h3]
  dsimp only
  rw [if_pos ⟨hne, by simp⟩, h4, decodeURIComponent_encodeURIComponent]
  rfl

/-- Round trip of the cookie codec: a Cookie header assembled as
name=encodeURIComponent(value) parses back to the original value,
provided the name is nonempty, free of separators and does not start
with whitespace. -/
theorem getCookie_roundTrip (name value : Str) (hne : name ≠ [])
    (hsemi : ∀ x ∈ name, x ≠ ';') (heq : ∀ x ∈ name, x ≠ '=')
    (hhead : isJsWhitespace (name.head hne) = false) :
    getCookie (some (name ++ '=' :: encodeURIComponent value)) name =
      Except.ok (some value) := by
  unfold getCookie
  rw [parseCookies_pair name value hne hsemi heq hhead]
  simp [Except.map, List.lookup]

/-! ## Lemmas about the auth routes -/

theorem takeWhile_name (name t : Str) (h : ∀ x ∈ name, x ≠ '=') :
    (name ++ '=' :: t).takeWhile (fun c => c ≠ '=') = name := by
  induction name with
  | nil => simp [List.takeWhile_cons]
  | cons a l ih =>
    have ha : a ≠ '=' := h a (List.mem_cons_self a l)
    show List.takeWhile _ (a :: (l ++ '=' :: t)) = a :: l
    rw [List.takeWhile_cons, if_pos (by simpa using ha),
      ih (fun x hx => h x (List.mem_cons_of_mem _ hx))]

theorem setCookieName_shape (name rest : Str) (h : ∀ x ∈ name, x ≠ '=') :
    setCookieName (name ++ '=' :: rest) = name :=
  takeWhile_name name rest h

theorem intercalate_cons_cons (sep x y : Str) (l : List Str) :
    List.intercalate sep (x :: y :: l) =
      x ++ sep ++ List.intercalate sep (y :: l) := by
  simp [List.intercalate, List.intersperse_cons₂]

theorem generateSetCookie_shape (name value : Str) (opts : CookieOptions)
    (https : Bool) :
    ∃ t, generateSetCookie name value opts https =
      name ++ '=' :: (encodeURIComponent value ++ t) := by
  unfold generateSetCookie
  dsimp only
  rw [show ([name ++ '=' :: encodeURIComponent value,
      str "Path=" ++ (opts.path.getD (str "/")),
      str "Max-Age=" ++ natDigits ((opts.maxAge.getD cookieMaxAge) / 1000),
      str "SameSite=" ++ (opts.sameSite.getD (str "Lax"))] ++
      (if opts.httpOnly.getD true then [str "HttpOnly"] else []) ++
      (if opts.secure.getD https then [str "Secure"] else []) ++
      (match opts.domain with
       | some d => [str "Domain=" ++ d]
       | none => [])) =
      (name ++ '=' :: encodeURIComponent value) ::
      ((str "Path=" ++ (opts.path.getD (str "/"))) ::
       (str "Max-Age=" ++ natDigits ((opts.maxAge.getD cookieMaxAge) / 1000)) ::
       (str "SameSite=" ++ (opts.sameSite.getD (str "Lax"))) ::
      ((if opts.httpOnly.getD true then [str "HttpOnly"] else []) ++
      ((if opts.secure.getD https then [str "Secure"] else []) ++
      (match opts.domain with
       | some d => [str "Domain=" ++ d]
       | none => [])))) from by simp]
  rw [intercalate_cons_cons]
  refine ⟨str "; " ++ List.intercalate (str "; ")
    ((str "Path=" ++ opts.path.getD (str "/")) ::
     (str "Max-Age=" ++ natDigits (opts.maxAge.getD cookieMaxAge / 1000)) ::
     (str "SameSite=" ++ opts.sameSite.getD (str "Lax")) ::
     ((if opts.httpOnly.getD true then [str "HttpOnly"] else []) ++
      ((if opts.secure.getD https then [str "Secure"] else []) ++
       (match opts.domain with
        | some d => [str "Domain=" ++ d]
        | none => [])))), ?_⟩
  simp [List.append_assoc]

theorem setCookieName_generateSetCookie (name value : Str)
    (opts : CookieOptions) (https : Bool) (h : ∀ x ∈ name, x ≠ '=') :
    setCookieName (generateSetCookie name value opts https) = name := by
  obtain ⟨t, ht⟩ := generateSetCookie_shape name value opts https
  rw [ht]
  exact setCookieName_shape name _ h

theorem refreshRoute_success (hdr : Option Str) (st : Nat) (a : Str)
    (ref : Option Str) (https : Bool) (rt : Str)
    (hc : getCookie hdr refreshTokenCookieName = Except.ok (some rt))
    (hrt : rt ≠ []) (ha : a ≠ []) :
    refreshRoute hdr (.reply true st (some a) ref) https =
      ⟨200, .successJson,
       generateSetCookie accessTokenCookieName a accessCookieOptions https ::
       (if ref.getD [] = [] then []
        else [generateSetCookie refreshTokenCookieName (ref.getD [])
                refreshCookieOptions https])⟩ := by
  unfold refreshRoute
  rw [hc]
  dsimp only
  rw [if_neg (by simpa using hrt)]
  rw [if_neg (show ¬((!true) = true) from by decide),
    if_neg (show ¬((some a).getD [] = []) from by simpa using ha)]
  rfl

theorem loginRoute_success (em pw : Str) (hem : em ≠ []) (hpw : pw ≠ [])
    (st : Nat) (a : Str) (ref : Option Str) (msg : Option Str)
    (ufo https : Bool) (ha : a ≠ []) :
    loginRoute (some em) (some pw) (.reply true st (some a) ref) msg ufo https =
      ⟨200, .loginOk ufo,
       generateSetCookie accessTokenCookieName a accessCookieOptions https ::
       (if ref.getD [] = [] then []
        else [generateSetCookie refreshTokenCookieName (ref.getD [])
                refreshCookieOptions https])⟩ := by
  unfold loginRoute
  rw [if_neg (by simp [hem, hpw])]
  dsimp only
  rw [if_neg (show ¬((!true) = true) from by decide),
    if_neg (show ¬((some a).getD [] = []) from by simpa using ha)]
  rfl

theorem lookup_objAssign_ne (m : List (Str × Str)) (k v q : Str)
    (h : q ≠ k) : (objAssign m k v).lookup q = m.lookup q := by
  induction m with
  | nil =>
    simp only [objAssign, List.lookup]
    rw [show (q == k) = false from beq_eq_false_iff_ne.mpr h]
  | cons p rest ih =>
    obtain ⟨k0, v0⟩ := p
    by_cases hk : k0 = k
    · subst hk
      simp only [objAssign, if_pos rfl, List.lookup]
      rw [show (q == k0) = false from beq_eq_false_iff_ne.mpr h]
    · simp only [objAssign, if_neg hk, List.lookup]
      rw [ih]

theorem applySetCookies_preserves (headers : List Str) (q : Str)
    (h : ∀ s ∈ headers, setCookieName s ≠ q) :
    ∀ jar : List (Str × Str),
      (applySetCookies jar headers).lookup q = jar.lookup q := by
  induction headers with
  | nil => intro jar; rfl
  | cons s rest ih =>
    intro jar
    have hs : setCookieName s ≠ q := h s (List.mem_cons_self _ _)
    have ht : ∀ x ∈ rest, setCookieName x ≠ q :=
      fun x hx => h x (List.mem_cons_of_mem _ hx)
    show (applySetCookies (objAssign jar (setCookieName s) s) rest).lookup q
      = jar.lookup q
    rw [ih ht]
    exact lookup_objAssign_ne jar (setCookieName s) s q (Ne.symm hs)

theorem setCookieName_access (a : Str) (https : Bool) :
    setCookieName (generateSetCookie accessTokenCookieName a
      accessCookieOptions https) = accessTokenCookieName :=
  setCookieName_generateSetCookie _ _ _ _ (by decide)

theorem setCookieName_refresh (r : Str) (https : Bool) :
    setCookieName (generateSetCookie refreshTokenCookieName r
      refreshCookieOptions https) = refreshTokenCookieName :=
  setCookieName_generateSetCookie _ _ _ _ (by decide)

theorem access_beq_refresh :
    (accessTokenCookieName == refreshTokenCookieName) = false := by decide

/-! ## Claim C2 -/

/-- C2, counterexample: the claim says every login/renewal response that
sets the access-token cookie with a new value also sets the
refresh-token cookie in the same response. The refresh route refutes
it: with a valid refresh cookie and a provider reply carrying a new
access token but no refresh token, the response sets the access cookie
and no refresh cookie. -/
theorem C2_counterexample :
    setsCookieFor (refreshRoute (some (str "refresh_token=old"))
        (.reply true 200 (some (str "newacc")) none) false)
      accessTokenCookieName = true ∧
    setsCookieFor (refreshRoute (some (str "refresh_token=old"))
        (.reply true 200 (some (str "newacc")) none) false)
      refreshTokenCookieName = false := ⟨rfl, rfl⟩

/-- C2, amended: on every successful login or renewal response — which
requires the provider to have supplied a truthy (nonempty) new access
token — the access-token cookie is set, and the refresh-token cookie
is set in the same response exactly when the identity provider
supplied a truthy (nonempty) refresh token in that exchange; when it
supplied both tokens, both cookies are set together. -/
theorem C2_theorem (hdr : Option Str) (st : Nat) (a rt : Str)
    (ref : Option Str) (https : Bool) (em pw : Str) (msg : Option Str)
    (ufo : Bool)
    (hc : getCookie hdr refreshTokenCookieName = Except.ok (some rt))
    (hrt : rt ≠ []) (ha : a ≠ []) (hem : em ≠ []) (hpw : pw ≠ []) :
    (setsCookieFor (refreshRoute hdr (.reply true st (some a) ref) https)
        accessTokenCookieName = true ∧
     (setsCookieFor (refreshRoute hdr (.reply true st (some a) ref) https)
        refreshTokenCookieName = true ↔ ref.getD [] ≠ [])) ∧
    (setsCookieFor (loginRoute (some em) (some pw)
        (.reply true st (some a) ref) msg ufo https)
        accessTokenCookieName = true ∧
     (setsCookieFor (loginRoute (some em) (some pw)
        (.reply true st (some a) ref) msg ufo https)
        refreshTokenCookieName = true ↔ ref.getD [] ≠ [])) := by
  rw [refreshRoute_success hdr st a ref https rt hc hrt ha,
      loginRoute_success em pw hem hpw st a ref msg ufo https ha]
  by_cases href : ref.getD [] = [] <;>
    simp [setsCookieFor, setCookieName_access, setCookieName_refresh,
      access_beq_refresh, href]

/-- C2, witness at a concrete input. -/
theorem C2_witness :
    setsCookieFor (refreshRoute (some (str "refresh_token=tok"))
        (.reply true 200 (some (str "na")) (some (str "nr"))) false)
      refreshTokenCookieName = true :=
  (((C2_theorem (some (str "refresh_token=tok")) 200 (str "na") (str "tok")
      (some (str "nr")) false (str "e") (str "p") none false (by rfl)
      (by decide) (by decide) (by decide) (by decide)).1).2).mpr (by decide)

/-! ## Claim C6 -/

/-- C6: rotation preserved. When the provider's renewal reply supplies a
new access token but no refresh token, the renewal response carries
exactly one Set-Cookie header — the access cookie — no header for the
refresh-token cookie, and applying the response to any browser cookie
jar leaves the stored refresh-token entry (value and Max-Age alike)
unchanged. -/
theorem C6_theorem (hdr : Option Str) (st : Nat) (a rt : Str) (https : Bool)
    (hc : getCookie hdr refreshTokenCookieName = Except.ok (some rt))
    (hrt : rt ≠ []) (ha : a ≠ []) :
    (refreshRoute hdr (.reply true st (some a) none) https).setCookies =
      [generateSetCookie accessTokenCookieName a accessCookieOptions https] ∧
    setsCookieFor (refreshRoute hdr (.reply true st (some a) none) https)
      refreshTokenCookieName = false ∧
    ∀ jar : List (Str × Str),
      (applySetCookies jar
        (refreshRoute hdr (.reply true st (some a) none) https).setCookies).lookup
        refreshTokenCookieName = jar.lookup refreshTokenCookieName := by
  rw [refreshRoute_success hdr st a none https rt hc hrt ha]
  refine ⟨rfl, ?_, ?_⟩
  · simp [setsCookieFor, setCookieName_access, access_beq_refresh]
  · intro jar
    apply applySetCookies_preserves
    intro s hs
    simp only [Option.getD_none, List.mem_cons] at hs
    rcases hs with rfl | hs
    · rw [setCookieName_access]
      decide
    · simp at hs

/-- C6, witness at a concrete input. -/
theorem C6_witness :
    setsCookieFor (refreshRoute (some (str "refresh_token=tok"))
        (.reply true 200 (some (str "na")) none) false)
      refreshTokenCookieName = false :=
  (C6_theorem (some (str "refresh_token=tok")) 200 (str "na") (str "tok")
      false (by rfl) (by decide) (by decide)).2.1

/-! ## Claim C7 -/

/-- C7: the renewal endpoint returns 401 exactly when the inbound request
carries no (or an empty, hence falsy) refresh-token cookie or the
provider explicitly rejects the renewal; every 401 carries a JSON error
body and no Set-Cookie header; and on provider acceptance — a reply
with ok and a truthy (nonempty) new access token — it returns 200 with
the success body and Set-Cookie headers. An ok reply with a falsy
access token maps to 500, like a network error. -/
theorem C7_theorem (hdr : Option Str) (provider : ProviderReply)
    (https : Bool) (v : Option Str)
    (hok : getCookie hdr refreshTokenCookieName = Except.ok v) :
    ((refreshRoute hdr provider https).status = 401 ↔
      (v.getD [] = [] ∨ ∃ st acc ref, provider = .reply false st acc ref)) ∧
    ((refreshRoute hdr provider https).status = 401 →
      (∃ m, (refreshRoute hdr provider https).body = .errorJson m) ∧
      (refreshRoute hdr provider https).setCookies = []) ∧
    (∀ st a ref, provider = .reply true st (some a) ref → a ≠ [] →
      v.getD [] ≠ [] →
      (refreshRoute hdr provider https).status = 200 ∧
      (refreshRoute hdr provider https).body = .successJson ∧
      (refreshRoute hdr provider https).setCookies ≠ []) := by
  unfold refreshRoute
  rw [hok]
  dsimp only
  by_cases hv : v.getD [] = []
  · rw [if_pos hv]
    refine ⟨by simp [hv], fun _ => ⟨⟨_, rfl⟩, rfl⟩, ?_⟩
    intro st a ref hp ha2 hne
    exact absurd hv hne
  · rw [if_neg hv]
    cases provider with
    | netError =>
      dsimp only
      refine ⟨?_, fun h => absurd h (by decide), ?_⟩
      · constructor
        · intro h; exact absurd h (by decide)
        · rintro (h | ⟨st, acc, ref, h⟩)
          · exact absurd h hv
          · cases h
      · intro st a ref hp
        cases hp
    | reply ok pst acc ref =>
      cases ok with
      | false =>
        dsimp only
        refine ⟨?_, fun _ => ⟨⟨_, rfl⟩, rfl⟩, ?_⟩
        · exact ⟨fun _ => Or.inr ⟨pst, acc, ref, rfl⟩, fun _ => rfl⟩
        · intro st a ref2 hp
          cases hp
      | true =>
        dsimp only
        rw [if_neg (show ¬((!true) = true) by decide)]
        by_cases ha0 : acc.getD [] = []
        · rw [if_pos ha0]
          refine ⟨?_, fun h => absurd h (by decide), ?_⟩
          · constructor
            · intro h; exact absurd h (by decide)
            · rintro (h | ⟨st, acc2, ref2, h⟩)
              · exact absurd h hv
              · cases h
          · intro st a ref2 hp ha2 hne
            cases hp
            exact absurd (by simpa using ha0) ha2
        · rw [if_neg ha0]
          refine ⟨?_, fun h => absurd h (by simp), ?_⟩
          · constructor
            · intro h; exact absurd h (by simp)
            · rintro (h | ⟨st, acc2, ref2, h⟩)
              · exact absurd h hv
              · cases h
          · intro st a ref2 hp ha2 hne
            exact ⟨rfl, rfl, by simp⟩

/-- C7, witness at a concrete input. -/
theorem C7_witness :
    (refreshRoute (some (str "refresh_token=tok"))
      (.reply true 200 (some (str "na")) none) false).status = 200 :=
  ((C7_theorem (some (str "refresh_token=tok"))
      (.reply true 200 (some (str "na")) none) false (some (str "tok"))
      (by rfl)).2.2 200 (str "na") none rfl (by decide) (by decide)).1

/-! ## Claim C10 -/

/-- C10, counterexample: the claim quantifies over every cookie name free
of the two separator characters; the name " a" (leading space, no
equals sign or semicolon) breaks the round trip, because parseCookies
trims each piece before splitting, so the stored property is "a" and
the lookup of " a" returns undefined. -/
theorem C10_counterexample :
    getCookie (some (str " a" ++ '=' :: encodeURIComponent (str "v")))
      (str " a") ≠ Except.ok (some (str "v")) := by
  intro h
  have h0 : getCookie (some (str " a" ++ '=' :: encodeURIComponent (str "v")))
      (str " a") = Except.ok none := by rfl
  rw [h0] at h
  injection h with h1
  cases h1

/-- C10 (amended): for every cookie name that is nonempty, contains no
equals sign or semicolon, and does not start with a whitespace
character, and every value string, parsing the Cookie header assembled
as name=encodeURIComponent(value) with parseCookies/getCookie returns
exactly the original value. -/
theorem C10_theorem (name value : Str) (hne : name ≠ [])
    (hsemi : ∀ x ∈ name, x ≠ ';') (hequals : ∀ x ∈ name, x ≠ '=')
    (hhead : isJsWhitespace (name.head hne) = false) :
    getCookie (some (name ++ '=' :: encodeURIComponent value)) name =
      Except.ok (some value) :=
  getCookie_roundTrip name value hne hsemi hequals hhead

/-- C10, witness at a concrete input whose value contains spaces, equals
signs and semicolons. -/
theorem C10_witness :
    getCookie (some (str "token" ++ '=' :: encodeURIComponent (str "a b=c;d")))
      (str "token") = Except.ok (some (str "a b=c;d")) :=
  C10_theorem (str "token") (str "a b=c;d") (by decide) (by decide)
    (by decide) (by decide)

/-! ## Claim C3 -/

/-- C3, counterexample: the claim exempts the who-am-I probe from the
proactive check, but the request interceptor's exemption list has only
login, refresh and logout, so a due /auth/me request initiates a
renewal call. -/
theorem C3_counterexample :
    proactiveExemptUrl (str "/auth/me") = false ∧
    (coordRun (initCoordState 0)
      [.request (str "/auth/me") 240000]).startedCalls = 1 := ⟨rfl, rfl⟩

/-- C3 (amended): before dispatching every outbound request whose url is
not a login, renewal or logout call — the who-am-I probe is not
exempt — the coordinator finds renewal due exactly when
elapsed = now − lastRefreshTime ≥ ACCESS_TOKEN_EXPIRY − REFRESH_BUFFER
(5 minutes − 1 minute = 4 minutes = 240000 ms); exempt requests
proceed with no check, non-exempt non-due requests proceed without a
renewal, and a due non-exempt request with no renewal in flight
initiates one. -/
theorem C3_theorem (url : Str) (now : Int) (s : CoordState) :
    (REFRESH_THRESHOLD = ACCESS_TOKEN_EXPIRY - REFRESH_BUFFER ∧
     REFRESH_THRESHOLD = 240000) ∧
    (shouldRefreshToken now s.lastRefreshTime = true ↔
      REFRESH_THRESHOLD ≤ now - s.lastRefreshTime) ∧
    (proactiveExemptUrl (str "/auth/me") = false ∧
     proactiveExemptUrl (str "/auth/login") = true ∧
     proactiveExemptUrl (str "/auth/refresh") = true ∧
     proactiveExemptUrl (str "/auth/logout") = true) ∧
    (proactiveExemptUrl url = true →
      coordStep s (.request url now) = { s with joins := s.joins ++ [none] }) ∧
    (proactiveExemptUrl url = false →
      shouldRefreshToken now s.lastRefreshTime = false →
      coordStep s (.request url now) = { s with joins := s.joins ++ [none] }) ∧
    (proactiveExemptUrl url = false →
      shouldRefreshToken now s.lastRefreshTime = true →
      s.isRefreshing = false →
      (coordStep s (.request url now)).startedCalls = s.startedCalls + 1 ∧
      (coordStep s (.request url now)).outstandingCalls =
        s.outstandingCalls + 1) := by
  refine ⟨⟨rfl, rfl⟩, ?_, ⟨rfl, rfl, rfl, rfl⟩, ?_, ?_, ?_⟩
  · unfold shouldRefreshToken
    exact decide_eq_true_iff
  · intro he
    unfold coordStep
    dsimp only
    rw [if_pos he]
  · intro he hs
    unfold coordStep
    dsimp only
    rw [if_neg (by simp [he]), if_neg (by simp [hs])]
  · intro he hs hr
    unfold coordStep
    dsimp only
    rw [if_neg (by simp [he]), if_pos hs, if_neg (by simp [hr])]
    exact ⟨rfl, rfl⟩

/-- C3, witness at a concrete input. -/
theorem C3_witness :
    (coordStep (initCoordState 0)
        (.request (str "/api/items") 240000)).startedCalls =
      (initCoordState 0).startedCalls + 1 :=
  ((C3_theorem (str "/api/items") 240000 (initCoordState 0)).2.2.2.2.2
    (by rfl) (by rfl) rfl).1

/-! ## Claim C8 -/

/-- C8: a 401 response from the who-am-I probe, login, renewal or logout
endpoints is rejected unchanged by the response interceptor — no
renewal call, no retry — whatever the retry marker and in-flight state
are; likewise the 401-handling step of the coordinator records no
renewal for these urls. -/
theorem C8_theorem (url : Str) (retry : Bool) (isRefr hasPromise : Bool)
    (s : CoordState)
    (hmem : url ∈ [str "/auth/me", str "/auth/login", str "/auth/refresh",
      str "/auth/logout"]) :
    responseErrorDecision ⟨url, retry⟩ (some 401) isRefr hasPromise =
      .reject ∧
    coordStep s (.retry401 url) = { s with joins := s.joins ++ [none] } := by
  simp only [List.mem_cons, List.not_mem_nil, or_false] at hmem
  rcases hmem with rfl | rfl | rfl | rfl <;> cases retry <;>
    exact ⟨rfl, rfl⟩

/-- C8, witness at a concrete input. -/
theorem C8_witness :
    responseErrorDecision ⟨str "/auth/me", false⟩ (some 401) false false =
      .reject :=
  (C8_theorem (str "/auth/me") false false false (initCoordState 0)
    (by decide)).1

/-! ## Claim C9 -/

/-- C9: a request whose one-shot retry marker is already set and which
receives another 401 is rejected — no renewal attempt, no replay;
whenever the interceptor does attempt a renewal it marks the request
first, so the replayed request carries the marker; and the
continuation replays the request exactly when the awaited renewal
succeeded. -/
theorem C9_theorem (url : Str) (status : Option Nat)
    (isRefr hasPromise : Bool) :
    responseErrorDecision ⟨url, true⟩ status isRefr hasPromise = .reject ∧
    (∀ (r : ReqConfig) (m : ReqConfig),
      (responseErrorDecision r status isRefr hasPromise = .awaitExisting m ∨
       responseErrorDecision r status isRefr hasPromise = .initiate m) →
      m.retryFlag = true ∧ m.url = r.url) ∧
    (∀ m : ReqConfig, reactiveContinuation m false = .failureThenPropagate ∧
      reactiveContinuation m true = .replayRequest m) := by
  refine ⟨?_, ?_, fun m => ⟨rfl, rfl⟩⟩
  · unfold responseErrorDecision
    rw [if_pos (Or.inr rfl)]
  · intro r m h
    unfold responseErrorDecision at h
    split at h
    · rcases h with h | h <;> cases h
    · split at h
      · rcases h with h | h <;> cases h
      · split at h <;> rcases h with h | h <;> cases h <;> exact ⟨rfl, rfl⟩

/-- C9, witness at a concrete input. -/
theorem C9_witness :
    responseErrorDecision ⟨str "/api/data", true⟩ (some 401) false false =
      .reject :=
  (C9_theorem (str "/api/data") (some 401) false false).1

/-! ## Claim C1 -/

theorem singleFlightInv_step (s : CoordState) (e : CoordEvent)
    (h : SingleFlightInv s) : SingleFlightInv (coordStep s e) := by
  obtain ⟨h1, h2, h3⟩ := h
  cases e with
  | request url now =>
    unfold coordStep
    dsimp only
    by_cases he : proactiveExemptUrl url = true
    · rw [if_pos he]; exact ⟨h1, h2, h3⟩
    · rw [if_neg he]
      by_cases hs : shouldRefreshToken now s.lastRefreshTime = true
      · rw [if_pos hs]
        by_cases hr : (s.isRefreshing && s.refreshPromise.isSome) = true
        · rw [if_pos hr]; exact ⟨h1, h2, h3⟩
        · rw [if_neg hr]
          have hf : s.isRefreshing = false := by
            cases hb : s.isRefreshing
            · rfl
            · have hp : s.refreshPromise.isSome = true := h3.symm.trans hb
              exact absurd (by rw [hb, hp]; rfl) hr
          have ho : s.outstandingCalls = 0 := by
            by_contra hc
            have := h2 (Nat.pos_of_ne_zero hc)
            rw [hf] at this
            cases this
          refine ⟨?_, fun _ => rfl, rfl⟩
          dsimp only
          omega
      · rw [if_neg hs]; exact ⟨h1, h2, h3⟩
  | retry401 url =>
    unfold coordStep
    dsimp only
    by_cases he : reactiveExemptUrl url = true
    · rw [if_pos he]; exact ⟨h1, h2, h3⟩
    · rw [if_neg he]
      by_cases hr : (s.isRefreshing && s.refreshPromise.isSome) = true
      · rw [if_pos hr]; exact ⟨h1, h2, h3⟩
      · rw [if_neg hr]
        have hf : s.isRefreshing = false := by
          cases hb : s.isRefreshing
          · rfl
          · have hp : s.refreshPromise.isSome = true := h3.symm.trans hb
            exact absurd (by rw [hb, hp]; rfl) hr
        have ho : s.outstandingCalls = 0 := by
          by_contra hc
          have := h2 (Nat.pos_of_ne_zero hc)
          rw [hf] at this
          cases this
        refine ⟨?_, fun _ => rfl, rfl⟩
        dsimp only
        omega
  | resolve ok now =>
    unfold coordStep
    dsimp only
    by_cases hz : s.outstandingCalls = 0
    · rw [if_pos hz]; exact ⟨h1, h2, h3⟩
    · rw [if_neg hz]
      refine ⟨?_, fun hp => ?_, h3⟩
      · dsimp only
        omega
      · exfalso
        dsimp only at hp
        omega
  | finalize =>
    unfold coordStep
    dsimp only
    by_cases hc : s.outstandingCalls = 0 ∧ s.isRefreshing = true
    · obtain ⟨hc1, hc2⟩ := hc
      rw [if_pos ⟨hc1, hc2⟩]
      refine ⟨h1, fun hp => ?_, rfl⟩
      exfalso
      dsimp only at hp
      omega
    · rw [if_neg hc]; exact ⟨h1, h2, h3⟩

theorem singleFlightInv_run (s : CoordState) (evs : List CoordEvent)
    (h : SingleFlightInv s) : SingleFlightInv (coordRun s evs) := by
  induction evs generalizing s with
  | nil => exact h
  | cons e rest ih => exact ih _ (singleFlightInv_step s e h)

theorem coordStep_initiate (s : CoordState) (url : Str) (now : Int)
    (he : proactiveExemptUrl url = false)
    (hs : shouldRefreshToken now s.lastRefreshTime = true)
    (hr : s.isRefreshing = false) :
    coordStep s (.request url now) =
      { s with
          isRefreshing := true,
          refreshPromise := some s.nextPromiseId,
          nextPromiseId := s.nextPromiseId + 1,
          outstandingCalls := s.outstandingCalls + 1,
          startedCalls := s.startedCalls + 1,
          joins := s.joins ++ [some s.nextPromiseId] } := by
  unfold coordStep
  dsimp only
  rw [if_neg (by simp [he]), if_pos hs, if_neg (by simp [hr])]

theorem coordRun_joins (p : Nat) (tail : List CoordEvent) :
    ∀ s : CoordState, s.isRefreshing = true → s.refreshPromise = some p →
    (∀ e ∈ tail, dueArrival s.lastRefreshTime e = true) →
    coordRun s tail =
      { s with joins := s.joins ++ List.replicate tail.length (some p) } := by
  induction tail with
  | nil =>
    intro s _ _ _
    show s = _
    simp
  | cons e rest ih =>
    intro s h1 h2 h3
    have he := h3 e (List.mem_cons_self _ _)
    have hstep : coordStep s e = { s with joins := s.joins ++ [some p] } := by
      cases e with
      | request url now =>
        simp only [dueArrival, Bool.and_eq_true, Bool.not_eq_true'] at he
        unfold coordStep
        dsimp only
        rw [if_neg (by simp [he.1]), if_pos he.2,
          if_pos (by rw [h1, h2]; rfl), h2]
      | retry401 url =>
        simp only [dueArrival, Bool.not_eq_true'] at he
        unfold coordStep
        dsimp only
        rw [if_neg (by simp [he]), if_pos (by rw [h1, h2]; rfl), h2]
      | resolve ok now => cases he
      | finalize => cases he
    show coordRun (coordStep s e) rest = _
    rw [hstep, ih { s with joins := s.joins ++ [some p] } h1 h2
      (fun e2 he2 => h3 e2 (List.mem_cons_of_mem _ he2))]
    have hj : (s.joins ++ [some p]) ++ List.replicate rest.length (some p) =
        s.joins ++ List.replicate (rest.length + 1) (some p) := by
      rw [List.append_assoc, List.singleton_append, ← List.replicate_succ]
    dsimp only
    rw [hj, List.length_cons]

/-- C1: single flight. At most one renewal HTTP call is outstanding at
any instant: the single-flight invariant (outstanding calls ≤ 1, an
outstanding call implies the in-flight guard, guard and shared promise
coupled) is preserved by every run of the coordinator. And for any N
concurrent requests arriving while elapsed ≥ threshold (or as
concurrent 401 handlers) with no renewal in flight, the first arrival
starts exactly one renewal HTTP call and all N arrivals await that
same shared promise — late arrivals join the in-flight promise rather
than starting a second call. -/
theorem C1_theorem (s0 : CoordState) (evs : List CoordEvent)
    (h0 : SingleFlightInv s0) :
    SingleFlightInv (coordRun s0 evs) ∧
    (∀ (url : Str) (now : Int) (tail : List CoordEvent),
      s0.isRefreshing = false →
      proactiveExemptUrl url = false →
      shouldRefreshToken now s0.lastRefreshTime = true →
      (∀ e ∈ tail, dueArrival s0.lastRefreshTime e = true) →
      (coordRun s0 (.request url now :: tail)).startedCalls =
        s0.startedCalls + 1 ∧
      (coordRun s0 (.request url now :: tail)).joins =
        s0.joins ++
          List.replicate (tail.length + 1) (some s0.nextPromiseId)) := by
  constructor
  · exact singleFlightInv_run s0 evs h0
  · intro url now tail hr he hs htail
    show (coordRun (coordStep s0 (.request url now)) tail).startedCalls = _ ∧
      (coordRun (coordStep s0 (.request url now)) tail).joins = _
    rw [coordStep_initiate s0 url now he hs hr]
    rw [coordRun_joins s0.nextPromiseId tail
      { s0 with
          isRefreshing := true,
          refreshPromise := some s0.nextPromiseId,
          nextPromiseId := s0.nextPromiseId + 1,
          outstandingCalls := s0.outstandingCalls + 1,
          startedCalls := s0.startedCalls + 1,
          joins := s0.joins ++ [some s0.nextPromiseId] }
      rfl rfl htail]
    constructor
    · rfl
    · dsimp only
      rw [List.append_assoc, List.singleton_append, ← List.replicate_succ]

/-- C1, witness: three concurrent arrivals (two proactive requests and a
reactive 401 handler) while renewal is due produce exactly one started
renewal call, all three joining promise 0. -/
theorem C1_witness :
    (coordRun (initCoordState 0)
      [.request (str "/api/a") 240000, .request (str "/api/b") 240001,
       .retry401 (str "/api/c")]).startedCalls = 0 + 1 ∧
    (coordRun (initCoordState 0)
      [.request (str "/api/a") 240000, .request (str "/api/b") 240001,
       .retry401 (str "/api/c")]).joins =
      [] ++ List.replicate (2 + 1) (some 0) :=
  (C1_theorem (initCoordState 0) []
      ⟨Nat.zero_le 1, fun h => absurd h (Nat.lt_irrefl 0), rfl⟩).2
    (str "/api/a") 240000
    [.request (str "/api/b") 240001, .retry401 (str "/api/c")]
    rfl (by decide) (by decide) (by decide)

/-! ## Claim C5 -/

/-- C5, counterexample: the claim says lastRenewalInstant is cleared to
the sentinel whenever a renewal attempt fails, but a failed proactive
renewal leaves it untouched — the request interceptor only logs the
failure and proceeds, deferring to the reactive path. After a due
request, a failed resolve and the finally step, lastRefreshTime is
still 5, not the sentinel 0. -/
theorem C5_counterexample :
    (coordRun (initCoordState 5)
      [.request (str "/api/items") 240005, .resolve false 240010,
       .finalize]).lastRefreshTime = 5 ∧
    (coordRun (initCoordState 5)
      [.request (str "/api/items") 240005, .resolve false 240010,
       .finalize]).lastRefreshTime ≠ 0 := ⟨rfl, by decide⟩

/-- C5 (amended): when a renewal attempt fails in the reactive
(401-handling) path, handleRefreshFailure together with the
initiator's finally block clears lastRefreshTime to the sentinel 0 and
clears the in-flight state, and exactly one redirect to the login page
is issued carrying the current location as the encoded redirect
parameter — unless the client is already at /login, in which case no
navigation occurs; a failed proactive renewal instead defers to this
reactive handler. -/
theorem C5_theorem (s : CoordState) (path : Str) :
    (reactiveFailureCleanup s path).1.lastRefreshTime = 0 ∧
    (reactiveFailureCleanup s path).1.isRefreshing = false ∧
    (reactiveFailureCleanup s path).1.refreshPromise = none ∧
    ((reactiveFailureCleanup s path).2 = none ↔ path = str "/login") ∧
    (path ≠ str "/login" →
      (reactiveFailureCleanup s path).2 =
        some (str "/login?redirect=" ++ encodeURIComponent path) ∧
      decodeURIComponent (encodeURIComponent path) = some path) := by
  unfold reactiveFailureCleanup handleRefreshFailure
  dsimp only
  by_cases hp : path = str "/login"
  · rw [if_pos hp]
    exact ⟨rfl, rfl, rfl, ⟨fun _ => hp, fun _ => rfl⟩,
      fun hc => absurd hp hc⟩
  · rw [if_neg hp]
    exact ⟨rfl, rfl, rfl,
      ⟨fun h => Option.noConfusion h, fun h => absurd h hp⟩,
      fun _ => ⟨rfl, decodeURIComponent_encodeURIComponent path⟩⟩

/-- C5, witness at a concrete input. -/
theorem C5_witness :
    (reactiveFailureCleanup (initCoordState 9)
      (str "/dashboard")).1.lastRefreshTime = 0 ∧
    (reactiveFailureCleanup (initCoordState 9) (str "/dashboard")).2 =
      some (str "/login?redirect=" ++ encodeURIComponent (str "/dashboard")) :=
  ⟨(C5_theorem (initCoordState 9) (str "/dashboard")).1,
   ((C5_theorem (initCoordState 9) (str "/dashboard")).2.2.2.2
     (by decide)).1⟩

/-! ## Claim C4 -/

/-- C4, counterexample: the claim says logout clears lastRenewalInstant
immediately and synchronously, before the logout network call's
response is even required; in the AuthContext logout function the
await of the logout POST precedes clearRefreshTimer, so the response
settles strictly before the timer is cleared. -/
theorem C4_counterexample :
    (logoutEvents true).indexOf (.logoutResponseSettled true) <
      (logoutEvents true).indexOf .refreshTimerCleared := by decide

/-- C4 (amended): on logout, lastRenewalInstant is cleared only after the
logout network call settles — on the success path and on the catch
path alike — and the clearing then fully resets the refresh state:
sentinel lastRefreshTime 0, in-flight flag off, no stored promise. -/
theorem C4_theorem (ok : Bool) (s : CoordState) :
    logoutEvents ok =
      [.logoutRequestSent, .logoutResponseSettled ok, .stateCleared,
       .refreshTimerCleared] ∧
    (logoutEvents ok).indexOf (.logoutResponseSettled ok) <
      (logoutEvents ok).indexOf .refreshTimerCleared ∧
    (clearRefreshTimer s).lastRefreshTime = 0 ∧
    (clearRefreshTimer s).isRefreshing = false ∧
    (clearRefreshTimer s).refreshPromise = none := by
  refine ⟨rfl, ?_, rfl, rfl, rfl⟩
  cases ok <;> decide

end SessionAuth
